import Mathlib

/-!
Verification of the NMRP protocol core (nmrp.c): message codec, frame
receive logic, and the handshake state machine, as a shallow embedding.

Two complementary embeddings of the codec are used:
* a byte-level model of msg_ntoh operating on the raw network-order bytes of
  a received message (memory modelled as a total function from byte offset to
  byte value, as C pointer arithmetic sees it), used for claims about offsets,
  malformed-input classification and termination;
* a struct-level model of struct nmrp_msg / struct nmrp_opt with
  msg_update_len, msg_hton and msg_ntoh as struct transformers, used for the
  encode/decode round-trip and length-recomputation claims.

The state machine (nmrp_do) is embedded as explicit recursion over the list
of received events, with the external collaborators (socket, transfer tool,
clock) supplied as inputs.
-/

namespace Nmrp

/-! ## Protocol constants (nmrp.c lines 16-44) -/

def NMRP_HDR_LEN : Nat := 6
def NMRP_OPT_LEN : Nat := 4
def ETH_P_NMRP : Nat := 0x0912

def NMRP_C_NONE : Nat := 0
def NMRP_C_ADVERTISE : Nat := 1
def NMRP_C_CONF_REQ : Nat := 2
def NMRP_C_CONF_ACK : Nat := 3
def NMRP_C_CLOSE_REQ : Nat := 4
def NMRP_C_CLOSE_ACK : Nat := 5
def NMRP_C_KEEP_ALIVE_REQ : Nat := 6
def NMRP_C_KEEP_ALIVE_ACK : Nat := 7
def NMRP_C_TFTP_UL_REQ : Nat := 16

/-! ## Byte-level model of msg_ntoh (nmrp.c lines 125-160)

A received message is a sequence of network-order bytes; we model it as a
total function from byte offset (relative to the start of struct nmrp_msg)
to byte value, matching what the C pointer arithmetic reads.  Offsets:
reserved at 0-1, code at 2, id at 3, len at 4-5 (big endian), options from 6.

msg_ntoh walks the options with a pointer of type struct nmrp_opt*, and
advances it with ++opt, i.e. by a FIXED stride of sizeof(struct nmrp_opt)
= 12 bytes, not by the option's declared length.  The i-th visited option
header therefore sits at byte offset 6 + 12*i.  The running remainder,
however, is decremented by the declared length (remaining -= opt->len).
The loop body byte-swaps the 4 header bytes of the visited slot; visited
slots at stride 12 never overlap, so later length reads are unaffected by
earlier swaps and the walk can be modelled over the original bytes. -/

/-- Big-endian (network order) 16-bit read of the two bytes at offset off,
as done by ntohs on a uint16_t field. -/
def read16 (mem : Nat → Nat) (off : Nat) : Nat :=
  mem off % 256 * 256 + mem (off + 1) % 256

/-- Byte offset of the i-th option header visited by msg_ntoh: the cursor
starts at msg->opts (offset 6) and ++opt advances by sizeof(struct nmrp_opt)
= 12 bytes (nmrp.c line 150). -/
def ntohOptOff (i : Nat) : Nat := 6 + 12 * i

/-- Declared length of the i-th option slot visited by msg_ntoh: the uint16
at bytes 2-3 of the slot (opt->len, after ntohs). -/
def optLenAt (mem : Nat → Nat) (i : Nat) : Nat :=
  read16 mem (ntohOptOff i + 2)

/-- The running remainder of msg_ntoh before visiting slot i:
remaining starts at msg->len - NMRP_HDR_LEN (an int, so modelled in Int)
and each iteration subtracts the visited slot's declared length. -/
def remSeq (mem : Nat → Nat) : Nat → Int
  | 0 => (read16 mem 4 : Int) - 6
  | i + 1 => remSeq mem i - optLenAt mem i

/-- Result of msg_ntoh.  The C function returns 1 for both failures; they are
distinguished by the diagnostic printed (Malformed message / Trailing data),
mirrored here as tooShort / trailing. -/
inductive NtohResult
  | ok
  | tooShort
  | trailing
deriving DecidableEq, Repr

/-- The while loop of msg_ntoh (nmrp.c lines 139-151) plus the final
remainder test (lines 153-157), with an explicit fuel bound on the number of
iterations; none means the fuel was exhausted with the loop still running.
State: i = index of the next option slot the cursor points at,
remaining = the int remainder. -/
def msgNtohLoop (mem : Nat → Nat) : Nat → Nat → Int → Option NtohResult
  | 0, _, remaining =>
    if 0 < remaining then
      if remaining < 4 then some .tooShort else none
    else if remaining = 0 then some .ok else some .trailing
  | fuel + 1, i, remaining =>
    if 0 < remaining then
      if remaining < 4 then some .tooShort
      else msgNtohLoop mem fuel (i + 1) (remaining - optLenAt mem i)
    else if remaining = 0 then some .ok else some .trailing

/-- msg_ntoh on the raw message bytes: after msg_hdr_ntoh, remaining is
msg->len - NMRP_HDR_LEN and the option walk starts at the first slot. -/
def msg_ntoh_mem (mem : Nat → Nat) (fuel : Nat) : Option NtohResult :=
  msgNtohLoop mem fuel 0 ((read16 mem 4 : Int) - 6)

/-- How the loop classifies the first remainder that drops below 4. -/
def classify (r : Int) : NtohResult :=
  if r < 0 then .trailing else if r = 0 then .ok else .tooShort

/-- Slot index k is where the walk stops: its remainder is the first one
below 4 (every earlier remainder let the loop continue). -/
def stopsAt (mem : Nat → Nat) (k : Nat) : Prop :=
  remSeq mem k < 4 ∧ ∀ j < k, 4 ≤ remSeq mem j

/-- The claim's TooShort condition: at some reached walk point fewer than 4
bytes remain (0 < remaining < 4) where an option header is expected. -/
def tooShortCond (mem : Nat → Nat) : Prop :=
  ∃ k, stopsAt mem k ∧ 0 < remSeq mem k

/-- The claim's Trailing condition: the running remainder goes negative
without landing on zero. -/
def trailingCond (mem : Nat → Nat) : Prop :=
  ∃ k, stopsAt mem k ∧ remSeq mem k < 0

/-- The claim's success condition: the declared length is exactly consumed. -/
def okCond (mem : Nat → Nat) : Prop :=
  ∃ k, stopsAt mem k ∧ remSeq mem k = 0

/-- Byte offset of the i-th option header under the contiguous walk used by
msg_dump (nmrp.c line 107: opt = (struct nmrp_opt*)(((char*)opt) + len))
and stated by the spec: each header follows the previous option's declared
length, starting at offset 6. -/
def dumpOptOff (mem : Nat → Nat) : Nat → Nat
  | 0 => 6
  | k + 1 => dumpOptOff mem k + read16 mem (dumpOptOff mem k + 2)

/-! ### Concrete inputs -/

/-- A header-only message: reserved 0, code 1, id 0, declared length 6. -/
def mem6 : Nat → Nat := fun n => [0, 0, 1, 0, 0, 6].getD n 0

/-- A well-formed contiguous message with two options: declared length 22,
option 0 at offset 6 with type 1, declared length 8, payload 1 2 3 4;
option 1 at offset 14 with type 2, declared length 8, payload 78 84 71 82.
6 + 8 + 8 = 22, so the contiguous walk consumes the length exactly. -/
def cMem2 : Nat → Nat := fun n =>
  [0, 0, 2, 0, 0, 22,
   0, 1, 0, 8, 1, 2, 3, 4,
   0, 2, 0, 8, 78, 84, 71, 82].getD n 0

/-- Declared length 10 (one slot remaining = 4) with every subsequent byte
zero, so every visited slot declares length 0. -/
def zMem4 : Nat → Nat := fun n => [0, 0, 2, 0, 0, 10].getD n 0

/-- Declared length 16 (remaining = 10) with every option byte zero: the
first option declares length 0 and so does every later slot the fixed-stride
cursor visits. -/
def zMem10 : Nat → Nat := fun n => [0, 0, 2, 0, 0, 16].getD n 0

/-! ### Lemmas about the msg_ntoh walk -/

/-! ## Struct-level model of struct nmrp_msg (nmrp.c lines 46-160)

struct nmrp_opt has uint16 type and len and an 8-byte payload union; struct
nmrp_msg has uint16 reserved, uint8 code and id, uint16 len, an array
opts[2] of options and a uint32 num_opts.  Fields are modelled as Nat with
the 16-bit representation invariant carried as hypotheses where it matters;
the opts array is a list (of length 2 in the C struct; num_opts ≤ length is
the in-bounds regime of the C loops).  msg_hton and msg_ntoh mutate the
struct in place; they are modelled as struct transformers.  msg_ntoh's
option cursor (++opt) moves to the next array element, so at struct level
the walk is along the list; walking past the end of the array is undefined
behaviour in C and is modelled as the result none. -/

structure NmrpOpt where
  type : Nat
  len : Nat
  val : List Nat
deriving DecidableEq, Repr

structure NmrpMsg where
  reserved : Nat
  code : Nat
  id : Nat
  len : Nat
  opts : List NmrpOpt
  num_opts : Nat
deriving DecidableEq, Repr

/-- htons on a uint16: byte swap (the little-endian deployment of the C
code; the uint16 store wraps mod 2^16). -/
def hton16 (x : Nat) : Nat := x % 65536 % 256 * 256 + x % 65536 / 256

/-- ntohs on a uint16: the same byte swap. -/
def ntoh16 (x : Nat) : Nat := x % 65536 % 256 * 256 + x % 65536 / 256

/-- msg_update_len (nmrp.c lines 72-79): len starts at NMRP_HDR_LEN and
accumulates the len of each of the first num_opts options, each uint16
store wrapping mod 2^16. -/
def msg_update_len (msg : NmrpMsg) : NmrpMsg :=
  { msg with
    len := (msg.opts.take msg.num_opts).foldl (fun acc o => (acc + o.len) % 65536)
      NMRP_HDR_LEN }

/-- The loop body of msg_hton on one option (lines 119-122). -/
def hton_opt (o : NmrpOpt) : NmrpOpt :=
  { o with len := hton16 o.len, type := hton16 o.type }

/-- msg_hton (nmrp.c lines 112-123): byte-swaps reserved, len, and the
type/len of the first num_opts options; payloads and the remaining array
slots are untouched. -/
def msg_hton (msg : NmrpMsg) : NmrpMsg :=
  { msg with
    reserved := hton16 msg.reserved,
    len := hton16 msg.len,
    opts := (msg.opts.take msg.num_opts).map hton_opt ++ msg.opts.drop msg.num_opts }

/-- msg_hdr_ntoh (nmrp.c lines 125-129). -/
def msg_hdr_ntoh (msg : NmrpMsg) : NmrpMsg :=
  { msg with reserved := ntoh16 msg.reserved, len := ntoh16 msg.len }

/-- The option walk of msg_ntoh at struct level (lines 139-151): the cursor
is a position in the opts array; each visited option has its type and len
byte-swapped in place, then the remainder drops by the swapped len.  The
final remainder test is lines 153-157.  Running off the end of the array
(reading the bytes after opts[1]) is undefined behaviour, modelled none. -/
def ntohOptsLoop (remaining : Int) (opts : List NmrpOpt) :
    Option (NtohResult × List NmrpOpt) :=
  if 0 < remaining then
    if remaining < 4 then some (.tooShort, opts)
    else
      match opts with
      | [] => none
      | o :: rest =>
        (ntohOptsLoop (remaining - (ntoh16 o.len : Int)) rest).map
          (fun p => (p.1, NmrpOpt.mk (ntoh16 o.type) (ntoh16 o.len) o.val :: p.2))
  else if remaining = 0 then some (.ok, opts) else some (.trailing, opts)

/-- msg_ntoh (nmrp.c lines 131-160) at struct level: header swap, then the
option walk with remaining = msg->len - NMRP_HDR_LEN. -/
def msg_ntoh (msg : NmrpMsg) : Option (NtohResult × NmrpMsg) :=
  let m2 := msg_hdr_ntoh msg
  (ntohOptsLoop ((m2.len : Int) - 6) m2.opts).map
    (fun p => (p.1, { m2 with opts := p.2 }))

/-- The ADVERTISE message built by nmrp_do (lines 336-347): code 1, one
magic-number option of declared length 8 with payload N T G R, length field
as computed by msg_update_len; the second array slot is unused (zeroed). -/
def mAdv : NmrpMsg :=
  NmrpMsg.mk 0 1 0 14 [NmrpOpt.mk 1 8 [78, 84, 71, 82], NmrpOpt.mk 0 0 []] 1

/-- The CONF_ACK message built by nmrp_do (lines 406-417): code 3, a
device-IP option (type 2, declared length 12, addr+mask payload) and a
payload-less firmware-upload option (type 0x0101, declared length 4). -/
def mConfAck : NmrpMsg :=
  NmrpMsg.mk 0 3 0 0
    [NmrpOpt.mk 2 12 [192, 168, 1, 1, 255, 255, 255, 0], NmrpOpt.mk 257 4 []] 2

/-! ## The handshake state machine (nmrp.c lines 273-509)

nmrp_do is embedded in three layers, each an explicit recursion over the
events its C loop consumes:
* pkt_recv over the socket receive queue (a list of queued frames);
* the advertising loop over a list of per-attempt receive outcomes with the
  clock value observed after each attempt;
* the post-handshake do-while loop over the list of received messages, with
  the transfer collaborator supplied as an oracle indexed by invocation
  count.
The layers are deliberately separate abstractions: the two loops consume
pkt_recv outcomes, which the corresponding event structures record. -/

/-- Session data of the handshake loop: the advisory expected code
(variable expect), the upload-request counter (ulreqs), and the peer
hardware address used as reply destination (tx.eh.ether_dhost /
addr.sll_addr, abstracted to a single value). -/
structure Sess where
  expect : Nat
  ulreqs : Nat
  peer : Nat
deriving DecidableEq, Repr

/-- A received message as the handshake loop sees it: operation code
(rx.msg.code) and source hardware address (rx.eh.ether_shost, abstracted). -/
structure RxMsg where
  code : Nat
  source : Nat
deriving DecidableEq, Repr

/-- Observable outcome of the handshake loop: the codes of the messages
sent, in order; the number of transfer-collaborator invocations; and the
err value nmrp_do carries to the out label (0 = success, 1 = error,
2 = receive timeout). -/
structure LoopOut where
  sent : List Nat
  transfers : Nat
  err : Nat
deriving DecidableEq, Repr

/-- Prepend a sent message code to an outcome. -/
def withSend (c : Nat) (o : LoopOut) : LoopOut :=
  { o with sent := c :: o.sent }

/-- Count one transfer invocation in an outcome. -/
def withTransfer (o : LoopOut) : LoopOut :=
  { o with transfers := o.transfers + 1 }

/-- The do-while handshake loop of nmrp_do (nmrp.c lines 383-502), driven
by the list of messages pkt_recv delivers: the head is the message already
in rx when the loop is entered, and an exhausted list models pkt_recv
timing out (err = 2, lines 492-498).  tOk n is the result of the n-th
transfer invocation (tftp_put or the external command, lines 442-450;
true = exit status 0).  Not modelled: pkt_send failure (sendto assumed to
succeed), the advisory expectation-mismatch log (lines 384-387, no state
effect), and the receive-timeout reconfiguration (lines 454 and 500, no
effect on control flow at this layer). -/
def nmrpLoop (tOk : Nat → Bool) : Sess → List RxMsg → LoopOut
  | _, [] => LoopOut.mk [] 0 2
  | st, rx :: rest =>
    if rx.code = NMRP_C_ADVERTISE then
      -- lines 398-405: a competing advertiser: err = 1, goto out
      LoopOut.mk [] 0 1
    else if rx.code = NMRP_C_CONF_REQ then
      -- lines 406-433: reply CONF_ACK, fix peer to the sender, expect UL_REQ
      withSend NMRP_C_CONF_ACK
        (nmrpLoop tOk (Sess.mk NMRP_C_TFTP_UL_REQ st.ulreqs rx.source) rest)
    else if rx.code = NMRP_C_TFTP_UL_REQ then
      if 5 < st.ulreqs + 1 then
        -- lines 435-440: retry budget exceeded: send CLOSE_REQ, keep looping
        withSend NMRP_C_CLOSE_REQ
          (nmrpLoop tOk (Sess.mk st.expect (st.ulreqs + 1) st.peer) rest)
      else if tOk st.ulreqs then
        -- lines 442-455: transfer succeeds: expect CLOSE_REQ, nothing sent
        withTransfer
          (nmrpLoop tOk (Sess.mk NMRP_C_CLOSE_REQ (st.ulreqs + 1) st.peer) rest)
      else
        -- lines 456-459: transfer fails: goto out with its nonzero status
        LoopOut.mk [] 1 1
    else if rx.code = NMRP_C_KEEP_ALIVE_REQ then
      -- lines 462-464: reply KEEP_ALIVE_ACK, session state untouched
      withSend NMRP_C_KEEP_ALIVE_ACK (nmrpLoop tOk st rest)
    else if rx.code = NMRP_C_CLOSE_REQ then
      -- lines 465-467 and 487-490: reply CLOSE_ACK, break; err = 0 (line 504)
      LoopOut.mk [NMRP_C_CLOSE_ACK] 0 0
    else if rx.code = NMRP_C_CLOSE_ACK then
      -- lines 468-470: err = 0, goto out
      LoopOut.mk [] 0 0
    else
      -- lines 471-474: unknown code: log only, nothing sent, state untouched
      nmrpLoop tOk st rest

/-- One receive attempt of the advertising loop (nmrp.c lines 353-376): the
pkt_recv return value (0 ok, 1 error, 2 timeout, 3 wrong Ethertype), the
destination hardware address and message of the received frame (meaningful
when err = 0), and the value time(NULL) returns at the post-receive budget
check. -/
structure AdvStep where
  err : Nat
  dhost : List Nat
  rx : RxMsg
  now : Nat
deriving DecidableEq, Repr

/-- Outcome of the advertising loop: break into the handshake with the
accepted frame (recording how many ADVERTISE frames were sent), or goto out
carrying the current err value, or the supplied event list ran out with the
loop still running. -/
inductive AdvResult
  | proceed (sends : Nat) (dhost : List Nat) (rx : RxMsg)
  | bailOut (sends : Nat) (ret : Nat)
  | ranOff (sends : Nat)
deriving DecidableEq, Repr

/-- The advertising loop (nmrp.c lines 350-376).  Each iteration first
sends the ADVERTISE frame (line 359, counted in sends; sendto assumed to
succeed), then receives (line 364): a frame whose destination hardware
address equals the local address src is accepted (lines 365-366); pkt_recv
error 1 aborts with err = 1 (lines 367-369); otherwise the 60-second budget
since beg is checked (lines 371-374) and the loop retries.  Note that the
budget bail returns the CURRENT err value, which is 0 when the last receive
delivered a well-formed frame addressed to another host. -/
def advLoop (src : List Nat) (beg : Nat) (sends : Nat) : List AdvStep → AdvResult
  | [] => .ranOff sends
  | e :: rest =>
    if e.err = 0 ∧ e.dhost = src then .proceed (sends + 1) e.dhost e.rx
    else if e.err = 1 then .bailOut (sends + 1) 1
    else if 60 ≤ e.now - beg then .bailOut (sends + 1) e.err
    else advLoop src beg (sends + 1) rest

/-- A queued Ethernet frame: destination and source hardware addresses, the
Ethertype (the host-order value ntohs(eh.ether_type) yields), and the NMRP
message bytes following the 14-byte Ethernet header, in network order. -/
structure EthFrame where
  dhost : List Nat
  shost : List Nat
  ethertype : Nat
  msgBytes : List Nat
deriving DecidableEq, Repr

/-- Total datagram size on the wire. -/
def frameSize (f : EthFrame) : Nat := 14 + f.msgBytes.length

/-- The message bytes as the memory msg_ntoh walks; the receive buffer is
zeroed beforehand (line 197), so offsets past the datagram read as 0. -/
def frameMem (f : EthFrame) : Nat → Nat := fun n => f.msgBytes.getD n 0

/-- Outcome of pkt_recv (nmrp.c lines 191-232): the frame on return 0, the
error return 1, the timeout return 2, the wrong-Ethertype return 3; hang
marks a diverging msg_ntoh walk (no return in C). -/
inductive RecvOut
  | ok (f : EthFrame)
  | ioError
  | timeout
  | wrongProto
  | hang
deriving DecidableEq, Repr

/-- pkt_recv (nmrp.c lines 191-232) over the socket receive queue.  The
first recvfrom peeks MSG_PEEK bytes without consuming (line 198); EAGAIN
on an empty queue returns 2 (lines 201-204); a non-NMRP Ethertype returns 3
IMMEDIATELY, the frame still queued (lines 207-208); a datagram shorter
than NMRP_MIN_PKT_LEN = 20 returns 1, the frame still queued (lines
209-212); otherwise the second recvfrom consumes the datagram, reading the
exact size decoded from the peeked header (lines 214-217), returns 1 if the
byte count differs (lines 221-223), and finally runs msg_ntoh (line 225).
fuel bounds the msg_ntoh walk (a modelling artifact: the walk may
diverge). -/
def pkt_recv (fuel : Nat) (queue : List EthFrame) : RecvOut × List EthFrame :=
  match queue with
  | [] => (.timeout, [])
  | f :: rest =>
    if f.ethertype ≠ ETH_P_NMRP then (.wrongProto, f :: rest)
    else if frameSize f < 20 then (.ioError, f :: rest)
    else if min (frameSize f) (read16 (frameMem f) 4 + 14) ≠ read16 (frameMem f) 4 + 14 then
      (.ioError, rest)
    else
      match msg_ntoh_mem (frameMem f) fuel with
      | none => (.hang, rest)
      | some .ok => (.ok f, rest)
      | some _ => (.ioError, rest)

/-- The inputs nmrp_do consumes: outcomes of the argument checks (lines
282-305), of socket creation (line 309), of interface resolution, binding
and receive-timeout setup (lines 315-325), the local hardware address, the
clock value at the start of the advertising loop (line 351), the
advertising-loop receive attempts, the messages the handshake loop
receives, and the transfer oracle. -/
structure DoEnv where
  opUpload : Bool
  macOk : Bool
  ipOk : Bool
  maskOk : Bool
  fileOk : Bool
  sockOk : Bool
  intfOk : Bool
  bindOk : Bool
  rxtoOk : Bool
  src : List Nat
  beg : Nat
  advSteps : List AdvStep
  rxs : List RxMsg
  tOk : Nat → Bool

/-- Observable outcome of nmrp_do: the returned err value, how many times
close(sock) ran, and whether socket() had succeeded. -/
structure DoOut where
  ret : Nat
  closes : Nat
  sockCreated : Bool
deriving DecidableEq, Repr

/-- nmrp_do (nmrp.c lines 273-509).  The argument checks and socket setup
happen in source order; note that the failure paths of intf_get_info,
sock_bind_to_intf and sock_set_rx_timeout (lines 315-325) execute
"return 1" directly, NOT "goto out", so they close the socket zero times;
every later exit goes through the out label (lines 506-508), closing it
exactly once.  none models the advertising loop running out of supplied
events (no terminal outcome). -/
def nmrp_do (env : DoEnv) : Option DoOut :=
  if env.opUpload = false then some (DoOut.mk 1 0 false)
  else if env.macOk = false then some (DoOut.mk 1 0 false)
  else if env.ipOk = false then some (DoOut.mk 1 0 false)
  else if env.maskOk = false then some (DoOut.mk 1 0 false)
  else if env.fileOk = false then some (DoOut.mk 1 0 false)
  else if env.sockOk = false then some (DoOut.mk 1 0 false)
  else if env.intfOk = false then some (DoOut.mk 1 0 true)
  else if env.bindOk = false then some (DoOut.mk 1 0 true)
  else if env.rxtoOk = false then some (DoOut.mk 1 0 true)
  else
    match advLoop env.src env.beg 0 env.advSteps with
    | .ranOff _ => none
    | .bailOut _ r => some (DoOut.mk r 1 true)
    | .proceed _ _ rx0 =>
      some (DoOut.mk (nmrpLoop env.tOk (Sess.mk NMRP_C_CONF_REQ 0 0)
        (rx0 :: env.rxs)).err 1 true)

/-! ### Concrete state-machine inputs -/

/-- A local hardware address. -/
def src0 : List Nat := [2, 0, 0, 0, 0, 1]

/-- A different hardware address. -/
def d9 : List Nat := [9, 9, 9, 9, 9, 9]

/-- An upload-request message from the peer. -/
def ulMsg : RxMsg := RxMsg.mk 16 55

/-- A receive timeout observed 10 seconds in. -/
def stepT10 : AdvStep := AdvStep.mk 2 [] (RxMsg.mk 0 0) 10

/-- A receive timeout observed 70 seconds in. -/
def stepT70 : AdvStep := AdvStep.mk 2 [] (RxMsg.mk 0 0) 70

/-- A well-formed reply addressed to another host, observed at 60 seconds. -/
def stepMiss60 : AdvStep := AdvStep.mk 0 d9 (RxMsg.mk 2 55) 60

/-- An accepted advertise reply carrying a CONF_REQ, 5 seconds in. -/
def stepAccept : AdvStep := AdvStep.mk 0 src0 (RxMsg.mk 2 55) 5

/-- A non-NMRP frame (ARP Ethertype 0x0806). -/
def fArp : EthFrame :=
  EthFrame.mk [1, 1, 1, 1, 1, 1] [2, 2, 2, 2, 2, 2] 0x0806 [0, 0, 0, 0, 0, 0]

/-- An environment whose protocol phase never runs: the three socket-setup
stages succeed or fail as given. -/
def envSetup (iOk bOk rOk : Bool) : DoEnv :=
  DoEnv.mk true true true true true true iOk bOk rOk src0 0 [] [] (fun _ => true)

/-- A full happy-path environment: accepted advertise reply with CONF_REQ,
then an upload-request and a close-request, transfer succeeding. -/
def envHappy : DoEnv :=
  DoEnv.mk true true true true true true true true true src0 0 [stepAccept]
    [ulMsg, RxMsg.mk 4 55] (fun _ => true)

/-- An environment whose advertising loop sees only a reply addressed to
another host, at the 60-second budget. -/
def envMiss60 : DoEnv :=
  DoEnv.mk true true true true true true true true true src0 0 [stepMiss60]
    [] (fun _ => true)

theorem classify_of_pos {r : Int} (h : 0 < r) : classify r = .tooShort := by
  unfold classify
  rw [if_neg (by omega), if_neg (by omega)]

theorem classify_of_zero {r : Int} (h : r = 0) : classify r = .ok := by
  unfold classify
  rw [if_neg (by omega), if_pos h]

theorem classify_of_neg {r : Int} (h : r < 0) : classify r = .trailing := by
  unfold classify
  rw [if_pos h]

/-- Soundness: if the loop returns a result from slot i, some reached slot
k ≥ i is where it stopped, and the result is the classification of that
slot's remainder. -/
theorem msgNtohLoop_sound (mem : Nat → Nat) :
    ∀ (fuel i : Nat) (res : NtohResult),
      msgNtohLoop mem fuel i (remSeq mem i) = some res →
      ∃ k, i ≤ k ∧ remSeq mem k < 4 ∧ (∀ j, i ≤ j → j < k → 4 ≤ remSeq mem j) ∧
        res = classify (remSeq mem k) := by
  intro fuel
  induction fuel with
  | zero =>
    intro i res h
    simp only [msgNtohLoop] at h
    by_cases h1 : 0 < remSeq mem i
    · by_cases h2 : remSeq mem i < 4
      · rw [if_pos h1, if_pos h2] at h
        obtain rfl : NtohResult.tooShort = res := Option.some.inj h
        exact ⟨i, le_refl i, by omega, fun j hij hjk => by omega,
          (classify_of_pos h1).symm⟩
      · rw [if_pos h1, if_neg h2] at h
        exact absurd h (by simp)
    · rw [if_neg h1] at h
      by_cases h3 : remSeq mem i = 0
      · rw [if_pos h3] at h
        obtain rfl : NtohResult.ok = res := Option.some.inj h
        exact ⟨i, le_refl i, by omega, fun j hij hjk => by omega,
          (classify_of_zero h3).symm⟩
      · rw [if_neg h3] at h
        obtain rfl : NtohResult.trailing = res := Option.some.inj h
        exact ⟨i, le_refl i, by omega, fun j hij hjk => by omega,
          (classify_of_neg (by omega)).symm⟩
  | succ fuel ih =>
    intro i res h
    simp only [msgNtohLoop] at h
    by_cases h1 : 0 < remSeq mem i
    · by_cases h2 : remSeq mem i < 4
      · rw [if_pos h1, if_pos h2] at h
        obtain rfl : NtohResult.tooShort = res := Option.some.inj h
        exact ⟨i, le_refl i, by omega, fun j hij hjk => by omega,
          (classify_of_pos h1).symm⟩
      · -- continue: remaining ≥ 4, recurse at slot i+1
        rw [if_pos h1, if_neg h2] at h
        have hrec : msgNtohLoop mem fuel (i + 1) (remSeq mem (i + 1)) = some res := by
          simpa [remSeq] using h
        obtain ⟨k, hik, hk4, hall, hres⟩ := ih (i + 1) res hrec
        refine ⟨k, by omega, hk4, ?_, hres⟩
        intro j hij hjk
        rcases Nat.eq_or_lt_of_le hij with h' | h'
        · subst h'
          omega
        · exact hall j (by omega) hjk
    · rw [if_neg h1] at h
      by_cases h3 : remSeq mem i = 0
      · rw [if_pos h3] at h
        obtain rfl : NtohResult.ok = res := Option.some.inj h
        exact ⟨i, le_refl i, by omega, fun j hij hjk => by omega,
          (classify_of_zero h3).symm⟩
      · rw [if_neg h3] at h
        obtain rfl : NtohResult.trailing = res := Option.some.inj h
        exact ⟨i, le_refl i, by omega, fun j hij hjk => by omega,
          (classify_of_neg (by omega)).symm⟩

/-- Completeness: if slot k is where the walk stops (relative to start slot
i), then with fuel at least k - i the loop from slot i returns the
classification of slot k's remainder. -/
theorem msgNtohLoop_complete (mem : Nat → Nat) :
    ∀ (fuel i k : Nat), i ≤ k → k ≤ i + fuel → remSeq mem k < 4 →
      (∀ j, i ≤ j → j < k → 4 ≤ remSeq mem j) →
      msgNtohLoop mem fuel i (remSeq mem i) = some (classify (remSeq mem k)) := by
  intro fuel
  induction fuel with
  | zero =>
    intro i k hik hki hk4 hall
    obtain rfl : i = k := by omega
    simp only [msgNtohLoop]
    by_cases h1 : 0 < remSeq mem i
    · rw [if_pos h1, if_pos hk4, classify_of_pos h1]
    · rw [if_neg h1]
      by_cases h3 : remSeq mem i = 0
      · rw [if_pos h3, classify_of_zero h3]
      · rw [if_neg h3, classify_of_neg (by omega)]
  | succ fuel ih =>
    intro i k hik hki hk4 hall
    simp only [msgNtohLoop]
    rcases Nat.eq_or_lt_of_le hik with h' | h'
    · subst h'
      by_cases h1 : 0 < remSeq mem i
      · rw [if_pos h1, if_pos hk4, classify_of_pos h1]
      · rw [if_neg h1]
        by_cases h3 : remSeq mem i = 0
        · rw [if_pos h3, classify_of_zero h3]
        · rw [if_neg h3, classify_of_neg (by omega)]
    · have hi4 : 4 ≤ remSeq mem i := hall i (le_refl i) h'
      rw [if_pos (by omega), if_neg (by omega)]
      have : remSeq mem i - (optLenAt mem i : Int) = remSeq mem (i + 1) := by
        simp [remSeq]
      rw [this]
      exact ih (i + 1) k (by omega) (by omega) hk4 (fun j hj hjk => hall j (by omega) hjk)

/-- The stopping slot is unique. -/
theorem stopsAt_unique (mem : Nat → Nat) {k k' : Nat}
    (h : stopsAt mem k) (h' : stopsAt mem k') : k = k' := by
  rcases Nat.lt_trichotomy k k' with hlt | heq | hgt
  · exact absurd (h'.2 k hlt) (by have := h.1; omega)
  · exact heq
  · exact absurd (h.2 k' hgt) (by have := h'.1; omega)

/-- If the walk returns a result, the input has a unique stopping slot and
the result classifies it. -/
theorem msg_ntoh_mem_sound {mem : Nat → Nat} {fuel : Nat} {res : NtohResult}
    (h : msg_ntoh_mem mem fuel = some res) :
    ∃ k, stopsAt mem k ∧ res = classify (remSeq mem k) := by
  have h0 : msgNtohLoop mem fuel 0 (remSeq mem 0) = some res := h
  obtain ⟨k, _, hk4, hall, hres⟩ := msgNtohLoop_sound mem fuel 0 res h0
  exact ⟨k, ⟨hk4, fun j hj => hall j (Nat.zero_le j) hj⟩, hres⟩

/-- C3 (amended) main content, shared shape: the classification iffs. -/
theorem ntoh_classification {mem : Nat → Nat} {fuel : Nat} {res : NtohResult}
    (h : msg_ntoh_mem mem fuel = some res) :
    (res = .tooShort ↔ tooShortCond mem) ∧
    (res = .trailing ↔ trailingCond mem) ∧
    (res = .ok ↔ okCond mem) := by
  obtain ⟨k, hstop, hres⟩ := msg_ntoh_mem_sound h
  have hk4 := hstop.1
  refine ⟨⟨?_, ?_⟩, ⟨?_, ?_⟩, ⟨?_, ?_⟩⟩
  · intro he
    refine ⟨k, hstop, ?_⟩
    by_contra hc
    rw [he] at hres
    rcases (by omega : remSeq mem k < 0 ∨ remSeq mem k = 0) with h' | h'
    · rw [classify_of_neg h'] at hres
      exact absurd hres (by simp)
    · rw [classify_of_zero h'] at hres
      exact absurd hres (by simp)
  · rintro ⟨k', hstop', hpos⟩
    obtain rfl : k = k' := stopsAt_unique mem hstop hstop'
    rw [hres, classify_of_pos hpos]
  · intro he
    refine ⟨k, hstop, ?_⟩
    by_contra hc
    rw [he] at hres
    rcases (by omega : 0 < remSeq mem k ∨ remSeq mem k = 0) with h' | h'
    · rw [classify_of_pos h'] at hres
      exact absurd hres (by simp)
    · rw [classify_of_zero h'] at hres
      exact absurd hres (by simp)
  · rintro ⟨k', hstop', hneg⟩
    obtain rfl : k = k' := stopsAt_unique mem hstop hstop'
    rw [hres, classify_of_neg hneg]
  · intro he
    refine ⟨k, hstop, ?_⟩
    by_contra hc
    rw [he] at hres
    rcases (by omega : 0 < remSeq mem k ∨ remSeq mem k < 0) with h' | h'
    · rw [classify_of_pos h'] at hres
      exact absurd hres (by simp)
    · rw [classify_of_neg h'] at hres
      exact absurd hres (by simp)
  · rintro ⟨k', hstop', hz⟩
    obtain rfl : k = k' := stopsAt_unique mem hstop hstop'
    rw [hres, classify_of_zero hz]

/-- On a message whose every visited option slot declares length 0 while the
remainder stays at least 4, the loop never returns, whatever the fuel. -/
theorem msgNtohLoop_stall (mem : Nat → Nat) (r : Int) (h4 : 4 ≤ r)
    (hz : ∀ i, optLenAt mem i = 0) :
    ∀ (fuel i : Nat), msgNtohLoop mem fuel i r = none := by
  intro fuel
  induction fuel with
  | zero =>
    intro i
    simp only [msgNtohLoop]
    rw [if_pos (by omega), if_neg (by omega)]
  | succ fuel ih =>
    intro i
    simp only [msgNtohLoop]
    rw [if_pos (by omega), if_neg (by omega), hz i]
    simpa using ih (i + 1)

/-- Every option slot of zMem4 declares length 0 (all bytes past the header
are zero). -/
theorem optLenAt_zMem4 (i : Nat) : optLenAt zMem4 i = 0 := by
  have h1 : zMem4 (ntohOptOff i + 2) = 0 :=
    List.getD_eq_default _ _ (by simp [ntohOptOff]; omega)
  have h2 : zMem4 (ntohOptOff i + 2 + 1) = 0 :=
    List.getD_eq_default _ _ (by simp [ntohOptOff]; omega)
  simp [optLenAt, read16, h1, h2]

/-- The remainder of zMem4 is stuck at 4. -/
theorem remSeq_zMem4 (k : Nat) : remSeq zMem4 k = 4 := by
  induction k with
  | zero => simp [remSeq, zMem4, read16]
  | succ k ih => simp [remSeq, ih, optLenAt_zMem4]

/-- Every option slot of zMem10 declares length 0. -/
theorem optLenAt_zMem10 (i : Nat) : optLenAt zMem10 i = 0 := by
  have h1 : zMem10 (ntohOptOff i + 2) = 0 :=
    List.getD_eq_default _ _ (by simp [ntohOptOff]; omega)
  have h2 : zMem10 (ntohOptOff i + 2 + 1) = 0 :=
    List.getD_eq_default _ _ (by simp [ntohOptOff]; omega)
  simp [optLenAt, read16, h1, h2]

/-- The remainder of zMem10 is stuck at 10. -/
theorem remSeq_zMem10 (k : Nat) : remSeq zMem10 k = 10 := by
  induction k with
  | zero => simp [remSeq, zMem10, read16]
  | succ k ih => simp [remSeq, ih, optLenAt_zMem10]

/-- C3 (amended): whenever msg_ntoh returns at all, it returns the TooShort
failure exactly when at some reached walk point fewer than 4 bytes remain
where an option header is expected, the Trailing failure exactly when the
running remainder goes negative without landing on zero, and success exactly
when the declared length is exactly consumed.  (The amendment is the
"whenever it returns" proviso: on a message whose visited slots all declare
length zero with at least 4 bytes remaining, the walk never returns.) -/
theorem C3_ntoh_classification {mem : Nat → Nat} {fuel : Nat} {res : NtohResult}
    (h : msg_ntoh_mem mem fuel = some res) :
    (res = .tooShort ↔ tooShortCond mem) ∧
    (res = .trailing ↔ trailingCond mem) ∧
    (res = .ok ↔ okCond mem) :=
  ntoh_classification h

/-- C3 witness: the header-only message mem6 (declared length 6) decodes
successfully, and the classification theorem applies to it. -/
theorem C3_witness :
    (NtohResult.ok = NtohResult.tooShort ↔ tooShortCond mem6) ∧
    (NtohResult.ok = NtohResult.trailing ↔ trailingCond mem6) ∧
    (NtohResult.ok = NtohResult.ok ↔ okCond mem6) :=
  C3_ntoh_classification (show msg_ntoh_mem mem6 0 = some NtohResult.ok by decide)

/-- C3 counterexample to the claim as stated: on zMem4 (declared length 10,
all option bytes zero) neither the TooShort condition nor the Trailing
condition holds, yet decoding does not succeed: the loop never returns for
any number of iterations, contradicting the claim's "succeeds otherwise". -/
theorem C3_counterexample :
    ¬ tooShortCond zMem4 ∧ ¬ trailingCond zMem4 ∧
    ∀ fuel, msg_ntoh_mem zMem4 fuel = none := by
  refine ⟨?_, ?_, ?_⟩
  · rintro ⟨k, ⟨hk4, -⟩, -⟩
    rw [remSeq_zMem4] at hk4
    omega
  · rintro ⟨k, ⟨hk4, -⟩, -⟩
    rw [remSeq_zMem4] at hk4
    omega
  · intro fuel
    have h0 : ((read16 zMem4 4 : Int) - 6) = 4 := by decide
    unfold msg_ntoh_mem
    rw [h0]
    exact msgNtohLoop_stall zMem4 4 (by omega) optLenAt_zMem4 fuel 0

/-- C10: the option-decoding loop of msg_ntoh does NOT terminate for every
input message.  On zMem10, a message of declared length 16 whose first
option declares length 0 (and every later fixed-stride slot reads length 0),
the remaining-byte counter stays at 10 forever while the cursor advances,
and the loop never returns, for any number of iterations. -/
theorem C10_ntoh_nontermination :
    optLenAt zMem10 0 = 0 ∧ remSeq zMem10 0 = 10 ∧
    ∀ fuel, msg_ntoh_mem zMem10 fuel = none := by
  refine ⟨optLenAt_zMem10 0, remSeq_zMem10 0, ?_⟩
  intro fuel
  have h0 : ((read16 zMem10 4 : Int) - 6) = 10 := by decide
  unfold msg_ntoh_mem
  rw [h0]
  exact msgNtohLoop_stall zMem10 10 (by omega) optLenAt_zMem10 fuel 0

/-- C2: msg_ntoh does NOT locate successive option headers at the offset
given by summing the declared lengths of the preceding options.  On the
well-formed contiguous message cMem2 (declared length 22 = 6 + 8 + 8, two
options of declared length 8), the contiguous walk (the one msg_dump uses,
line 107) puts the second header at offset 14 with declared length 8 and
consumes the message exactly, but msg_ntoh reads the second length at its
fixed-stride offset 18 + 2, obtaining 18258 (two payload bytes of option 1),
drives the remainder negative, and rejects the message as trailing data. -/
theorem C2_fixed_stride_walk :
    ntohOptOff 1 = 18 ∧
    dumpOptOff cMem2 1 = 14 ∧
    read16 cMem2 (dumpOptOff cMem2 1 + 2) = 8 ∧
    6 + read16 cMem2 (dumpOptOff cMem2 0 + 2)
      + read16 cMem2 (dumpOptOff cMem2 1 + 2) = read16 cMem2 4 ∧
    optLenAt cMem2 1 = 18258 ∧
    msg_ntoh_mem cMem2 10 = some NtohResult.trailing := by
  refine ⟨by decide, by decide, by decide, by decide, by decide, by decide⟩

theorem ntoh16_hton16 {x : Nat} (h : x < 65536) : ntoh16 (hton16 x) = x := by
  unfold hton16 ntoh16
  rw [Nat.mod_eq_of_lt h]
  have h2 : x % 256 * 256 + x / 256 < 65536 := by omega
  rw [Nat.mod_eq_of_lt h2]
  omega


/-- The walk undoes hton_opt on a well-formed prefix and consumes exactly
its total declared length, leaving the suffix untouched. -/
theorem ntohOptsLoop_roundtrip :
    ∀ (pre suf : List NmrpOpt),
      (∀ o ∈ pre, 4 ≤ o.len ∧ o.len < 65536 ∧ o.type < 65536) →
      ntohOptsLoop (((pre.map NmrpOpt.len).sum : Nat) : Int) (pre.map hton_opt ++ suf) =
        some (.ok, pre ++ suf) := by
  intro pre
  induction pre with
  | nil =>
    intro suf h
    unfold ntohOptsLoop
    simp
  | cons o pre ih =>
    intro suf h
    obtain ⟨ho4, ho1, ho2⟩ := h o (by simp)
    have hsum : 4 ≤ ((o.len + (pre.map NmrpOpt.len).sum : Nat) : Int) := by
      have h4 : (4 : Nat) ≤ o.len + (pre.map NmrpOpt.len).sum :=
        le_trans ho4 (Nat.le_add_right _ _)
      exact_mod_cast h4
    rw [List.map_cons, List.sum_cons, List.map_cons, List.cons_append]
    rw [ntohOptsLoop]
    rw [if_pos (by omega), if_neg (by omega)]
    have hback : ntoh16 (hton_opt o).len = o.len := by
      simp only [hton_opt]
      exact ntoh16_hton16 ho1
    have htype : ntoh16 (hton_opt o).type = o.type := by
      simp only [hton_opt]
      exact ntoh16_hton16 ho2
    have hval : (hton_opt o).val = o.val := rfl
    simp only [hback, htype, hval]
    have hrem : ((o.len + (pre.map NmrpOpt.len).sum : Nat) : Int)
        - (o.len : Int) = (((pre.map NmrpOpt.len).sum : Nat) : Int) := by
      push_cast
      ring
    rw [hrem, ih suf (fun o' ho' => h o' (by simp [ho']))]
    have hmk : NmrpOpt.mk o.type o.len o.val = o := rfl
    simp [hmk]

/-- C1: for every valid message (its meaningful options within the opts
array and the 2-slot capacity, each option well-formed with declared length
at least 4 and 16-bit type/len fields, the length field satisfying the
header-plus-options invariant, reserved a 16-bit value), decoding the
encoded form (msg_hton then msg_ntoh) yields the message again — reserved,
code, id, length and every option's type, length and payload included. -/
theorem C1_msg_roundtrip (m : NmrpMsg)
    (hn : m.num_opts ≤ m.opts.length) (hcap : m.num_opts ≤ 2)
    (hres : m.reserved < 65536)
    (hopts : ∀ o ∈ m.opts.take m.num_opts, 4 ≤ o.len ∧ o.len < 65536 ∧ o.type < 65536)
    (hlen : m.len = NMRP_HDR_LEN + ((m.opts.take m.num_opts).map NmrpOpt.len).sum)
    (hlen2 : m.len < 65536) :
    msg_ntoh (msg_hton m) = some (.ok, m) := by
  have hres2 : ntoh16 (hton16 m.reserved) = m.reserved := ntoh16_hton16 hres
  have hlen3 : ntoh16 (hton16 m.len) = m.len := ntoh16_hton16 hlen2
  have hwalk := ntohOptsLoop_roundtrip (m.opts.take m.num_opts)
    (m.opts.drop m.num_opts) hopts
  obtain ⟨res, code, id, len, opts, nops⟩ := m
  simp only at hres2 hlen3 hlen hwalk ⊢
  simp only [msg_ntoh, msg_hton, msg_hdr_ntoh]
  simp only [hres2, hlen3]
  have hrem : ((len : Int) - 6) =
      (((((opts.take nops).map NmrpOpt.len).sum : Nat)) : Int) := by
    rw [hlen]
    unfold NMRP_HDR_LEN
    push_cast
    ring
  rw [hrem, hwalk]
  simp [List.take_append_drop]

/-- C1 witness: the concrete ADVERTISE message round-trips. -/
theorem C1_witness : msg_ntoh (msg_hton mAdv) = some (.ok, mAdv) :=
  C1_msg_roundtrip mAdv (by decide) (by decide) (by decide) (by decide)
    (by decide) (by decide)

/-- The fold of msg_update_len equals the header length plus the sum of the
declared option lengths, mod 2^16. -/
theorem update_len_foldl :
    ∀ (l : List NmrpOpt) (acc : Nat), acc < 65536 →
      l.foldl (fun a o => (a + o.len) % 65536) acc = (acc + (l.map NmrpOpt.len).sum) % 65536 := by
  intro l
  induction l with
  | nil =>
    intro acc h
    simp [Nat.mod_eq_of_lt h]
  | cons o l ih =>
    intro acc h
    rw [List.foldl_cons, ih ((acc + o.len) % 65536) (Nat.mod_lt _ (by omega))]
    rw [Nat.mod_add_mod]
    rw [List.map_cons, List.sum_cons]
    ring_nf

/-- C8: msg_update_len recomputes the length field from the options
currently present: the result is NMRP_HDR_LEN plus the sum of the declared
lengths of the first num_opts options (exactly 6 for a header-only message,
i.e. num_opts = 0), and it does not depend on the previous length field, so
mutating the option list before re-encoding changes the length accordingly.
The hypothesis is that the true total fits the 16-bit length field. -/
theorem C8_update_len (m : NmrpMsg)
    (h : NMRP_HDR_LEN + ((m.opts.take m.num_opts).map NmrpOpt.len).sum < 65536) :
    (msg_update_len m).len = NMRP_HDR_LEN + ((m.opts.take m.num_opts).map NmrpOpt.len).sum
    ∧ (msg_update_len (NmrpMsg.mk m.reserved m.code m.id m.len m.opts 0)).len
        = NMRP_HDR_LEN
    ∧ ∀ x, (msg_update_len (NmrpMsg.mk m.reserved m.code m.id x m.opts m.num_opts)).len
        = (msg_update_len m).len := by
  refine ⟨?_, by simp [msg_update_len], fun x => rfl⟩
  show (m.opts.take m.num_opts).foldl (fun a o => (a + o.len) % 65536) NMRP_HDR_LEN
      = NMRP_HDR_LEN + ((m.opts.take m.num_opts).map NmrpOpt.len).sum
  rw [update_len_foldl _ NMRP_HDR_LEN (by unfold NMRP_HDR_LEN; omega)]
  exact Nat.mod_eq_of_lt h

/-- C8 witness: applied to the concrete CONF_ACK message. -/
theorem C8_witness :
    (msg_update_len mConfAck).len
      = NMRP_HDR_LEN + ((mConfAck.opts.take mConfAck.num_opts).map NmrpOpt.len).sum
    ∧ (msg_update_len (NmrpMsg.mk mConfAck.reserved mConfAck.code mConfAck.id
        mConfAck.len mConfAck.opts 0)).len = NMRP_HDR_LEN
    ∧ ∀ x, (msg_update_len (NmrpMsg.mk mConfAck.reserved mConfAck.code mConfAck.id
        x mConfAck.opts mConfAck.num_opts)).len = (msg_update_len mConfAck).len :=
  C8_update_len mConfAck (by decide)

/-- C4: six consecutive upload-requests with the transfer always succeeding
yield exactly 5 transfer invocations, a single sent message which is the
close-request (sent only once the 6th upload-request has arrived: after 5
of them nothing has been sent), and a terminal outcome with err = 2
(receive timeout waiting after the courtesy close-request), i.e. failure. -/
theorem C4_retry_exhaustion :
    nmrpLoop (fun _ => true) (Sess.mk NMRP_C_CONF_REQ 0 0) (List.replicate 6 ulMsg)
      = LoopOut.mk [NMRP_C_CLOSE_REQ] 5 2
    ∧ nmrpLoop (fun _ => true) (Sess.mk NMRP_C_CONF_REQ 0 0) (List.replicate 5 ulMsg)
      = LoopOut.mk [] 5 2
    ∧ (LoopOut.mk [NMRP_C_CLOSE_REQ] 5 2).err ≠ 0 :=
  ⟨by decide, by decide, by decide⟩

/-- C9: a keep-alive-request received in any session state produces exactly
one keep-alive-ack reply and changes nothing else: the rest of the run is
the run of the remaining messages from the same session state (same
expected code, same peer address, same upload-retry counter, same transfer
oracle position), with the ack prepended to the sent messages. -/
theorem C9_keepalive_transparent (tOk : Nat → Bool) (st : Sess) (s : Nat)
    (rxs : List RxMsg) :
    nmrpLoop tOk st (RxMsg.mk NMRP_C_KEEP_ALIVE_REQ s :: rxs)
      = withSend NMRP_C_KEEP_ALIVE_ACK (nmrpLoop tOk st rxs) := by
  rfl

/-- C5 (amended): when the peeked frame's Ethertype differs from 0x0912,
pkt_recv classifies the outcome as wrong-protocol (return 3) and returns
immediately after the non-destructive peek: the frame is left unconsumed in
the socket queue, and no draining re-read occurs. -/
theorem C5_wrong_proto_unconsumed (fuel : Nat) (f : EthFrame)
    (rest : List EthFrame) (h : f.ethertype ≠ ETH_P_NMRP) :
    pkt_recv fuel (f :: rest) = (.wrongProto, f :: rest) := by
  simp only [pkt_recv]
  rw [if_pos h]

/-- C5 witness: a queued ARP frame. -/
theorem C5_witness : pkt_recv 0 [fArp] = (.wrongProto, [fArp]) :=
  C5_wrong_proto_unconsumed 0 fArp [] (by decide)

/-- C5 counterexample to the claim as stated: after pkt_recv classifies the
queued ARP frame as wrong-protocol, the frame is still at the head of the
queue — it was not drained by a second read, which the claim asserts. -/
theorem C5_counterexample :
    (pkt_recv 5 [fArp]).1 = RecvOut.wrongProto
    ∧ (pkt_recv 5 [fArp]).2 = [fArp]
    ∧ ([fArp] : List EthFrame) ≠ [] :=
  ⟨by decide, by decide, by decide⟩

/-- C6: the socket is NOT closed exactly once on every terminal outcome
following successful socket creation.  The failure paths of interface
resolution, interface binding and receive-timeout configuration return with
zero closes (they return 1 directly instead of jumping to the out label),
while a full protocol-phase run (here: the happy path) closes exactly
once. -/
theorem C6_socket_close_paths :
    nmrp_do (envSetup false true true) = some (DoOut.mk 1 0 true)
    ∧ nmrp_do (envSetup true false true) = some (DoOut.mk 1 0 true)
    ∧ nmrp_do (envSetup true true false) = some (DoOut.mk 1 0 true)
    ∧ nmrp_do envHappy = some (DoOut.mk 0 1 true) :=
  ⟨rfl, rfl, rfl, rfl⟩

/-- The advertising loop only proceeds to the handshake with a frame whose
destination hardware address equals the local address. -/
theorem advLoop_proceed_src :
    ∀ (evs : List AdvStep) (src : List Nat) (beg n s : Nat) (d : List Nat)
      (r : RxMsg), advLoop src beg n evs = .proceed s d r → d = src := by
  intro evs
  induction evs with
  | nil =>
    intro src beg n s d r h
    exact absurd h (by simp [advLoop])
  | cons e rest ih =>
    intro src beg n s d r h
    simp only [advLoop] at h
    by_cases h1 : e.err = 0 ∧ e.dhost = src
    · rw [if_pos h1] at h
      obtain ⟨-, hd2, -⟩ := AdvResult.proceed.inj h
      rw [← hd2]
      exact h1.2
    · rw [if_neg h1] at h
      by_cases h2 : e.err = 1
      · rw [if_pos h2] at h
        exact absurd h (by simp)
      · rw [if_neg h2] at h
        by_cases h3 : 60 ≤ e.now - beg
        · rw [if_pos h3] at h
          exact absurd h (by simp)
        · rw [if_neg h3] at h
          exact ih src beg (n + 1) s d r h

/-- C7 (amended): (1) the advertising loop never proceeds to the handshake
on a frame whose destination hardware address differs from the local one;
(2) after a per-attempt receive timeout within the 60-second budget the
loop re-enters with one more ADVERTISE sent (the resend); (3) once the
budget is reached after a non-accepted, non-error receive, the loop exits
with the current pkt_recv status as the session result — a failure (err of
2 or 3) whenever that last receive did not deliver a well-formed frame; the
amendment is that a well-formed frame addressed elsewhere at the budget
check makes the loop exit with err 0, reported as success. -/
theorem C7_advertise_loop (src : List Nat) (beg n : Nat) (e : AdvStep)
    (rest : List AdvStep) :
    (∀ (evs : List AdvStep) (s : Nat) (d : List Nat) (r : RxMsg),
        d ≠ src → advLoop src beg n evs ≠ .proceed s d r)
    ∧ (e.err = 2 → e.now - beg < 60 →
        advLoop src beg n (e :: rest) = advLoop src beg (n + 1) rest)
    ∧ (e.err ≠ 0 → e.err ≠ 1 → 60 ≤ e.now - beg →
        advLoop src beg n (e :: rest) = .bailOut (n + 1) e.err ∧ e.err ≠ 0) := by
  refine ⟨?_, ?_, ?_⟩
  · intro evs s d r hd hc
    exact hd (advLoop_proceed_src evs src beg n s d r hc)
  · intro h2 hb
    simp only [advLoop]
    rw [if_neg (by simp [h2]), if_neg (by simp [h2]), if_neg (by omega)]
  · intro h0 h1 hb
    refine ⟨?_, h0⟩
    simp only [advLoop]
    rw [if_neg (by simp [h0]), if_neg h1, if_pos hb]

/-- C7 witness: a timeout at 10 seconds resends; a timeout at 70 seconds
bails with err 2 (failure); a reply addressed to d9 is never accepted when
the local address is src0. -/
theorem C7_witness :
    advLoop src0 0 0 [stepT10, stepT70] = advLoop src0 0 1 [stepT70]
    ∧ (advLoop src0 0 1 [stepT70] = .bailOut 2 stepT70.err ∧ stepT70.err ≠ 0)
    ∧ advLoop src0 0 0 [AdvStep.mk 0 d9 (RxMsg.mk 2 55) 5]
        ≠ .proceed 1 d9 (RxMsg.mk 2 55) :=
  ⟨(C7_advertise_loop src0 0 0 stepT10 [stepT70]).2.1 (by decide) (by decide),
   (C7_advertise_loop src0 0 1 stepT70 []).2.2 (by decide) (by decide) (by decide),
   (C7_advertise_loop src0 0 0 stepT10 []).1 [AdvStep.mk 0 d9 (RxMsg.mk 2 55) 5]
     1 d9 (RxMsg.mk 2 55) (by decide)⟩

/-- C7 counterexample to the claim as stated: when the receive at the
60-second budget check delivered a well-formed frame addressed to another
host, the loop exits with the stale err value 0, and nmrp_do reports
SUCCESS (return 0) — not the failure the claim asserts — after closing the
socket. -/
theorem C7_counterexample :
    advLoop src0 0 0 [stepMiss60] = AdvResult.bailOut 1 0
    ∧ nmrp_do envMiss60 = some (DoOut.mk 0 1 true) :=
  ⟨by decide, rfl⟩

end Nmrp
